import Mathlib

/-!
# Shallow embedding of libuv's timer subsystem (src/timer.c)

Timers are records stored in an arena (`handles`, indexed by handle id);
the loop's timer heap is modelled at its interface boundary as a multiset
of handle ids (`timer_heap : List Nat`) with `heap_insert` = cons,
`heap_remove` = erase, and `heap_min` returning a comparator-least member.
All u64 fields are `Nat` with explicit `% 2^64` where the C code can wrap.
Callbacks are opaque identifiers (`Option Nat`, `none` = NULL); firing a
callback is recorded in an output list instead of being executed.
-/

/-- `(uint64_t) -1`, the saturation value used by `uv_timer_start`. -/
def U64_MAX : Nat := 2 ^ 64 - 1

/-- C `INT_MAX`, the clamp bound in `uv__next_timeout`. -/
def INT_MAX : Nat := 2 ^ 31 - 1

/-- `UV_EINVAL` (negative errno-style code). -/
def UV_EINVAL : Int := -22

/-- One `uv_timer_t` handle: the fields of the C struct that timer.c
reads or writes, plus the two external handle-lifecycle flags
(`uv__is_active`, `uv__is_closing`) that timer.c consults. -/
structure Timer where
  /-- `handle->timer_cb`; `none` models a NULL pointer. -/
  timer_cb : Option Nat
  /-- `handle->timeout`: absolute deadline, u64. -/
  timeout : Nat
  /-- `handle->repeat`, u64 (named `rep` because `repeat` is reserved). -/
  rep : Nat
  /-- `handle->start_id`, allocated from `loop->timer_counter`. -/
  start_id : Nat
  /-- `uv__is_active(handle)`: linked into the heap / active set. -/
  active : Bool
  /-- `uv__is_closing(handle)`: set by the external `uv_close`. -/
  closing : Bool
deriving DecidableEq, Repr

instance : Inhabited Timer := ⟨⟨none, 0, 0, 0, false, false⟩⟩

/-- The loop state timer.c touches: `loop->time`, `loop->timer_counter`,
the timer heap (as a multiset of handle ids), and the arena of handles. -/
structure LoopState where
  /-- `loop->time`, u64, read-only inside each operation. -/
  time : Nat
  /-- `loop->timer_counter`, u64. -/
  timer_counter : Nat
  /-- ids currently linked into `loop->timer_heap`. -/
  timer_heap : List Nat
  /-- arena of timer handles; the handle id is the index. -/
  handles : List Timer
deriving DecidableEq, Repr

/-- Fetch the handle with id `i` (out-of-range ids yield the default
record; all theorems restrict to in-range ids). -/
def getTimer (st : LoopState) (i : Nat) : Timer :=
  st.handles.getD i default

/-- `timer_less_than(ha, hb)` from timer.c: deadline ascending, then
`start_id` ascending. Returns the C int as a `Bool`. -/
def timer_less_than (a b : Timer) : Bool :=
  if a.timeout < b.timeout then true
  else if b.timeout < a.timeout then false
  else a.start_id < b.start_id

/-- `heap_min` over a list of handle ids: a member no other member is
strictly less than (the heap primitive's peek-min, at its interface). -/
def heap_min_list (st : LoopState) : List Nat → Option Nat
  | [] => none
  | i :: rest =>
    match heap_min_list st rest with
    | none => some i
    | some j => if timer_less_than (getTimer st j) (getTimer st i) then some j else some i

/-- `heap_min((struct heap*) &loop->timer_heap)`. -/
def heap_min (st : LoopState) : Option Nat :=
  heap_min_list st st.timer_heap

/-- `uv_timer_init(loop, handle)`: registers a fresh handle with
`timer_cb = NULL`, `repeat = 0`, inactive and not closing; returns 0.
The new handle's id is `st.handles.length`. -/
def uv_timer_init (st : LoopState) : Int × LoopState :=
  (0, { st with handles := st.handles ++ [⟨none, 0, 0, 0, false, false⟩] })

/-- `uv_timer_stop(handle)`: no-op on an inactive handle; otherwise
removes the handle from the heap (`heap_remove`) and clears its active
flag (`uv__handle_stop`). Always returns 0. -/
def uv_timer_stop (st : LoopState) (i : Nat) : Int × LoopState :=
  let h := getTimer st i
  if h.active = false then (0, st)
  else
    (0, { st with
            timer_heap := st.timer_heap.erase i,
            handles := st.handles.set i { h with active := false } })

/-- `uv_timer_start(handle, cb, timeout, repeat)`: fails with
`UV_EINVAL` when the handle is closing or `cb` is NULL; otherwise stops
the handle if active, computes the wrap-checked clamped deadline,
stores the fields, allocates `start_id` from `loop->timer_counter++`,
inserts into the heap and marks the handle active. -/
def uv_timer_start (st : LoopState) (i : Nat) (cb : Option Nat)
    (timeout rep : Nat) : Int × LoopState :=
  let h := getTimer st i
  if h.closing || cb.isNone then (UV_EINVAL, st)
  else
    let st1 := if h.active then (uv_timer_stop st i).2 else st
    let sum := (st1.time + timeout) % 2 ^ 64
    let clamped_timeout := if sum < timeout then U64_MAX else sum
    let h1 : Timer :=
      { timer_cb := cb, timeout := clamped_timeout, rep := rep,
        start_id := st1.timer_counter, active := true,
        closing := (getTimer st1 i).closing }
    (0, { st1 with
            handles := st1.handles.set i h1,
            timer_counter := (st1.timer_counter + 1) % 2 ^ 64,
            timer_heap := i :: st1.timer_heap })

/-- `uv_timer_again(handle)`: `UV_EINVAL` when the stored callback is
NULL or `repeat` is 0; otherwise calls `uv_timer_start(handle,
handle->timer_cb, handle->repeat, handle->repeat)` and returns 0
regardless of that call's result. -/
def uv_timer_again (st : LoopState) (i : Nat) : Int × LoopState :=
  let h := getTimer st i
  if h.timer_cb.isNone || h.rep == 0 then (UV_EINVAL, st)
  else
    (0, (uv_timer_start st i h.timer_cb h.rep h.rep).2)

/-- `uv_timer_set_repeat(handle, repeat)`. -/
def uv_timer_set_repeat (st : LoopState) (i : Nat) (rep : Nat) : LoopState :=
  { st with handles := st.handles.set i { getTimer st i with rep := rep } }

/-- `uv_timer_get_repeat(handle)`. -/
def uv_timer_get_repeat (st : LoopState) (i : Nat) : Nat :=
  (getTimer st i).rep

/-- `uv__next_timeout(loop)`: -1 on empty heap, 0 when the minimum is
due, else the INT_MAX-clamped distance to the minimum's deadline.
Pure: it takes and returns no state. -/
def uv__next_timeout (st : LoopState) : Int :=
  match heap_min st with
  | none => -1
  | some i =>
    let h := getTimer st i
    if h.timeout ≤ st.time then 0
    else
      let diff := h.timeout - st.time
      let diff := if diff > INT_MAX then INT_MAX else diff
      (diff : Int)

/-- `uv__run_timers(loop)`, fuel-indexed: each iteration peeks the heap
minimum, breaks when absent or not yet due, otherwise stops it, calls
`uv_timer_again` on it, and fires its callback (recorded as the pair
`(handle id, timer_cb)` appended to `fired`). Returns `none` when the
fuel runs out before the loop breaks on its own. -/
def uv__run_timers (st : LoopState) (fired : List (Nat × Option Nat)) :
    Nat → Option (LoopState × List (Nat × Option Nat))
  | 0 => none
  | fuel + 1 =>
    match heap_min st with
    | none => some (st, fired)
    | some i =>
      let h := getTimer st i
      if st.time < h.timeout then some (st, fired)
      else
        let st1 := (uv_timer_stop st i).2
        let st2 := (uv_timer_again st1 i).2
        uv__run_timers st2 (fired ++ [(i, (getTimer st2 i).timer_cb)]) fuel

/-- `uv__timer_close(handle)`: forces a stop. -/
def uv__timer_close (st : LoopState) (i : Nat) : LoopState :=
  (uv_timer_stop st i).2
/-- The handles currently in the heap whose deadline has passed: the
timers `uv__run_timers` must fire. -/
def dueIds (st : LoopState) : List Nat :=
  st.timer_heap.filter (fun i => decide ((getTimer st i).timeout ≤ st.time))

/-- Interface well-formedness of a loop state, as maintained by the
operations: the heap is duplicate-free, holds only in-range ids, agrees
with the `active` flags (invariants I1/I4), and every heap member has a
non-NULL callback, is not closing, and has u64-bounded fields. -/
def WFcore (st : LoopState) : Prop :=
  st.timer_heap.Nodup ∧
  (∀ i ∈ st.timer_heap, i < st.handles.length) ∧
  (∀ i ∈ List.range st.handles.length,
      ((getTimer st i).active = true ↔ i ∈ st.timer_heap)) ∧
  (∀ i ∈ st.timer_heap,
      (getTimer st i).timer_cb ≠ none ∧ (getTimer st i).closing = false ∧
      (getTimer st i).timeout < 2 ^ 64 ∧ (getTimer st i).rep < 2 ^ 64)

/-- Ordering well-formedness: `start_id`s of heap members are pairwise
distinct and below `loop->timer_counter` (invariant I2's uniqueness). -/
def WFord (st : LoopState) : Prop :=
  (∀ i ∈ st.timer_heap, (getTimer st i).start_id < st.timer_counter) ∧
  (∀ i ∈ st.timer_heap, ∀ j ∈ st.timer_heap, i ≠ j →
      (getTimer st i).start_id ≠ (getTimer st j).start_id)

/-- Full well-formedness. -/
def WF (st : LoopState) : Prop := WFcore st ∧ WFord st

/-- Example state: empty loop. -/
def exStEmpty : LoopState :=
  { time := 0, timer_counter := 0, timer_heap := [], handles := [] }

/-- Example state: one not-yet-due timer (deadline 10, time 7). -/
def exStC3 : LoopState :=
  { time := 7, timer_counter := 1, timer_heap := [0],
    handles := [⟨some 1, 10, 0, 0, true, false⟩] }

/-- Example state: one fresh inactive handle, time 5. -/
def exStC4 : LoopState :=
  { time := 5, timer_counter := 0, timer_heap := [],
    handles := [⟨none, 0, 0, 0, false, false⟩] }

/-- Example state: one closing handle. -/
def exStC5 : LoopState :=
  { time := 0, timer_counter := 0, timer_heap := [],
    handles := [⟨none, 0, 0, 0, false, true⟩] }

/-- Example state: a closing handle that keeps a callback and a nonzero
repeat from an earlier start (reachable: start, stop via close). -/
def exStC6 : LoopState :=
  { time := 0, timer_counter := 1, timer_heap := [],
    handles := [⟨some 7, 0, 4, 0, false, true⟩] }

/-- Example state: one inactive handle with callback and repeat set. -/
def exStC7 : LoopState :=
  { time := 3, timer_counter := 2, timer_heap := [],
    handles := [⟨some 9, 0, 0, 1, false, false⟩] }

/-- Example state: three active due timers A@10, B@5, C@10 registered in
that order, at time 20 (the spec's firing-order scenario). -/
def exStBAC : LoopState :=
  { time := 20, timer_counter := 3, timer_heap := [0, 1, 2],
    handles := [⟨some 100, 10, 0, 0, true, false⟩,
                ⟨some 101, 5, 0, 1, true, false⟩,
                ⟨some 102, 10, 0, 2, true, false⟩] }

/-- Example state: one due repeating timer (deadline 10 = time, repeat 3). -/
def exStRep : LoopState :=
  { time := 10, timer_counter := 1, timer_heap := [0],
    handles := [⟨some 100, 10, 3, 0, true, false⟩] }

/-- Example state: a due repeating timer at the saturated tick
`U64_MAX`, on which `uv__run_timers` loops forever. -/
def exStSat : LoopState :=
  { time := U64_MAX, timer_counter := 1, timer_heap := [0],
    handles := [⟨some 100, 5, 3, 0, true, false⟩] }

/-! ## Basic facts about the comparator and the heap interface -/

theorem tlt_iff (a b : Timer) :
    timer_less_than a b = true ↔
      a.timeout < b.timeout ∨ (a.timeout = b.timeout ∧ a.start_id < b.start_id) := by
  unfold timer_less_than
  split_ifs with h1 h2 <;> simp <;> omega

theorem tlt_false_iff (a b : Timer) :
    timer_less_than a b = false ↔
      ¬(a.timeout < b.timeout ∨ (a.timeout = b.timeout ∧ a.start_id < b.start_id)) := by
  rw [Bool.eq_false_iff]
  exact not_congr (tlt_iff a b)

theorem tlt_irrefl (a : Timer) : timer_less_than a a = false :=
  (tlt_false_iff a a).mpr (by omega)

theorem tlt_asymm {a b : Timer} (h : timer_less_than a b = true) :
    timer_less_than b a = false := by
  rw [tlt_iff] at h
  rw [tlt_false_iff]
  omega

theorem tlt_trans {a b c : Timer} (hab : timer_less_than a b = true)
    (hbc : timer_less_than b c = true) : timer_less_than a c = true := by
  rw [tlt_iff] at hab hbc ⊢
  omega

theorem tlt_neg_trans {a b c : Timer} (hba : timer_less_than b a = false)
    (hcb : timer_less_than c b = false) : timer_less_than c a = false := by
  rw [tlt_false_iff] at hba hcb ⊢
  omega

theorem tlt_total (a b : Timer) (hab : timer_less_than a b = false)
    (hba : timer_less_than b a = false) :
    a.timeout = b.timeout ∧ ¬a.start_id < b.start_id ∧ ¬b.start_id < a.start_id := by
  rw [tlt_false_iff] at hab hba
  omega

theorem tlt_strictify {a b : Timer} (h : timer_less_than a b = false)
    (hne : a.start_id ≠ b.start_id) : timer_less_than b a = true := by
  rw [tlt_false_iff] at h
  rw [tlt_iff]
  omega

theorem heap_min_list_mem (st : LoopState) :
    ∀ (l : List Nat) (i : Nat), heap_min_list st l = some i → i ∈ l := by
  intro l
  induction l with
  | nil => intro i h; cases h
  | cons a rest ih =>
    intro i h
    unfold heap_min_list at h
    cases hrest : heap_min_list st rest with
    | none =>
      rw [hrest] at h
      simp only [Option.some.injEq] at h
      exact h ▸ List.mem_cons_self a rest
    | some j =>
      rw [hrest] at h
      by_cases hlt : timer_less_than (getTimer st j) (getTimer st a) = true
      · simp only [hlt, if_true, Option.some.injEq] at h
        exact h ▸ List.mem_cons_of_mem a (ih _ hrest)
      · simp only [hlt, if_false, Bool.false_eq_true, Option.some.injEq] at h
        exact h ▸ List.mem_cons_self a rest

theorem heap_min_list_eq_none (st : LoopState) (l : List Nat) :
    heap_min_list st l = none ↔ l = [] := by
  cases l with
  | nil => simp [heap_min_list]
  | cons a rest =>
    simp only [iff_false, List.cons_ne_nil, Ne]
    intro h
    unfold heap_min_list at h
    cases h2 : heap_min_list st rest with
    | none => rw [h2] at h; cases h
    | some k =>
      rw [h2] at h
      by_cases hk : timer_less_than (getTimer st k) (getTimer st a) = true <;>
        simp [hk] at h

theorem heap_min_list_least (st : LoopState) :
    ∀ (l : List Nat) (i : Nat), heap_min_list st l = some i →
      ∀ j ∈ l, timer_less_than (getTimer st j) (getTimer st i) = false := by
  intro l
  induction l with
  | nil => intro i h; cases h
  | cons a rest ih =>
    intro i h j hj
    unfold heap_min_list at h
    cases hrest : heap_min_list st rest with
    | none =>
      rw [hrest] at h
      simp only [Option.some.injEq] at h
      have hnil : rest = [] := (heap_min_list_eq_none st rest).mp hrest
      subst hnil
      rcases List.mem_cons.mp hj with rfl | hj2
      · exact h ▸ tlt_irrefl _
      · cases hj2
    | some k =>
      rw [hrest] at h
      by_cases hlt : timer_less_than (getTimer st k) (getTimer st a) = true
      · simp only [hlt, if_true, Option.some.injEq] at h
        subst h
        rcases List.mem_cons.mp hj with rfl | hj2
        · exact tlt_asymm hlt
        · exact ih _ hrest j hj2
      · simp only [hlt, if_false, Bool.false_eq_true, Option.some.injEq] at h
        subst h
        rcases List.mem_cons.mp hj with rfl | hj2
        · exact tlt_irrefl _
        · exact tlt_neg_trans (Bool.eq_false_iff.mpr hlt) (ih _ hrest j hj2)

/-! ## List index helpers for the handle arena -/

theorem getD_set_self : ∀ (l : List Timer) (i : Nat) (a : Timer), i < l.length →
    (l.set i a).getD i default = a
  | [], _, _, h => absurd h (by simp)
  | _ :: _, 0, _, _ => rfl
  | _ :: l, i + 1, a, h => getD_set_self l i a (Nat.lt_of_succ_lt_succ h)

theorem getD_set_ne : ∀ (l : List Timer) (i j : Nat) (a : Timer), i ≠ j →
    (l.set i a).getD j default = l.getD j default
  | [], _, _, _, _ => rfl
  | _ :: _, 0, 0, _, h => absurd rfl h
  | _ :: _, 0, _ + 1, _, _ => rfl
  | _ :: _, _ + 1, 0, _, _ => rfl
  | _ :: l, i + 1, j + 1, a, h => getD_set_ne l i j a (fun e => h (by rw [e]))

theorem getD_concat_length (l : List Timer) (a : Timer) :
    (l ++ [a]).getD l.length default = a := by
  rw [List.getD_append_right _ _ _ _ le_rfl, Nat.sub_self]
  rfl

attribute [ext] Timer LoopState

theorem isNone_false {cb : Option Nat} (hcb : cb ≠ none) : cb.isNone = false := by
  cases cb
  · exact absurd rfl hcb
  · rfl

theorem uv_timer_stop_of_inactive (st : LoopState) (i : Nat)
    (h : (getTimer st i).active = false) : uv_timer_stop st i = (0, st) := by
  unfold uv_timer_stop
  rw [if_pos h]

theorem uv_timer_stop_of_active (st : LoopState) (i : Nat)
    (h : (getTimer st i).active = true) :
    uv_timer_stop st i =
      (0, { st with timer_heap := st.timer_heap.erase i,
                    handles := st.handles.set i { getTimer st i with active := false } }) := by
  unfold uv_timer_stop
  rw [if_neg (by rw [h]; exact Bool.true_eq_false ▸ (by simp))]

theorem uv_timer_start_guard (st : LoopState) (i : Nat) (cb : Option Nat)
    (timeout rep : Nat) (h : (getTimer st i).closing = true ∨ cb = none) :
    uv_timer_start st i cb timeout rep = (UV_EINVAL, st) := by
  unfold uv_timer_start
  rcases h with h | h
  · rw [if_pos (by rw [h]; rfl)]
  · rw [if_pos (by subst h; simp)]

theorem uv_timer_start_success (st : LoopState) (i : Nat) (cb : Option Nat)
    (timeout rep : Nat) (hcl : (getTimer st i).closing = false) (hcb : cb ≠ none) :
    uv_timer_start st i cb timeout rep =
      (0,
        let st1 := if (getTimer st i).active then (uv_timer_stop st i).2 else st
        { st1 with
          handles := st1.handles.set i
            { timer_cb := cb,
              timeout := if (st1.time + timeout) % 2 ^ 64 < timeout then U64_MAX
                         else (st1.time + timeout) % 2 ^ 64,
              rep := rep, start_id := st1.timer_counter, active := true,
              closing := (getTimer st1 i).closing },
          timer_counter := (st1.timer_counter + 1) % 2 ^ 64,
          timer_heap := i :: st1.timer_heap }) := by
  unfold uv_timer_start
  rw [if_neg (by rw [hcl, isNone_false hcb]; simp)]

theorem clamp_eq_min (t x : Nat) (ht : t < 2 ^ 64) (hx : x < 2 ^ 64) :
    (if (t + x) % 2 ^ 64 < x then U64_MAX else (t + x) % 2 ^ 64)
      = min (t + x) U64_MAX := by
  unfold U64_MAX
  by_cases h : t + x < 2 ^ 64
  · rw [Nat.mod_eq_of_lt h, if_neg (by omega)]
    omega
  · have h2 : (t + x) % 2 ^ 64 = t + x - 2 ^ 64 := by omega
    rw [h2, if_pos (by omega)]
    omega


theorem uv_timer_start_inactive_eq (st : LoopState) (i : Nat) (cb : Option Nat)
    (timeout rep : Nat) (hcl : (getTimer st i).closing = false) (hcb : cb ≠ none)
    (hact : (getTimer st i).active = false) :
    uv_timer_start st i cb timeout rep =
      (0, { time := st.time,
            timer_counter := (st.timer_counter + 1) % 2 ^ 64,
            timer_heap := i :: st.timer_heap,
            handles := st.handles.set i
              { timer_cb := cb,
                timeout := if (st.time + timeout) % 2 ^ 64 < timeout then U64_MAX
                           else (st.time + timeout) % 2 ^ 64,
                rep := rep, start_id := st.timer_counter, active := true,
                closing := false } }) := by
  simp [uv_timer_start, hcl, isNone_false hcb, hact]

theorem uv_timer_start_active_eq (st : LoopState) (i : Nat) (cb : Option Nat)
    (timeout rep : Nat) (hcl : (getTimer st i).closing = false) (hcb : cb ≠ none)
    (hact : (getTimer st i).active = true) (hi : i < st.handles.length) :
    uv_timer_start st i cb timeout rep =
      (0, { time := st.time,
            timer_counter := (st.timer_counter + 1) % 2 ^ 64,
            timer_heap := i :: st.timer_heap.erase i,
            handles := st.handles.set i
              { timer_cb := cb,
                timeout := if (st.time + timeout) % 2 ^ 64 < timeout then U64_MAX
                           else (st.time + timeout) % 2 ^ 64,
                rep := rep, start_id := st.timer_counter, active := true,
                closing := false } }) := by
  have hg : getTimer (uv_timer_stop st i).2 i = { getTimer st i with active := false } := by
    rw [uv_timer_stop_of_active st i hact]
    unfold getTimer
    exact getD_set_self _ _ _ (by simpa using hi)
  simp only [uv_timer_start, hcl, isNone_false hcb, hact, Bool.or_self, if_true, hg]
  rw [uv_timer_stop_of_active st i hact]
  simp [List.set_set]

theorem getTimer_start_self (st : LoopState) (i : Nat) (cb : Option Nat)
    (timeout rep : Nat) (hcl : (getTimer st i).closing = false) (hcb : cb ≠ none)
    (hi : i < st.handles.length) :
    getTimer (uv_timer_start st i cb timeout rep).2 i =
      { timer_cb := cb,
        timeout := if (st.time + timeout) % 2 ^ 64 < timeout then U64_MAX
                   else (st.time + timeout) % 2 ^ 64,
        rep := rep, start_id := st.timer_counter, active := true,
        closing := false } := by
  by_cases hact : (getTimer st i).active = true
  · rw [uv_timer_start_active_eq st i cb timeout rep hcl hcb hact hi]
    simp only [getTimer]
    exact getD_set_self _ _ _ (by simpa using hi)
  · rw [uv_timer_start_inactive_eq st i cb timeout rep hcl hcb (Bool.eq_false_iff.mpr hact)]
    simp only [getTimer]
    exact getD_set_self _ _ _ (by simpa using hi)

/-- C2: `timer_less_than` returns true exactly when the first record's
`(timeout, start_id)` pair is lexicographically smaller, and it is a
strict total order: irreflexive, asymmetric, transitive, and any two
records it cannot separate agree on deadline and sequence id. -/
theorem timer_less_than_strict_total_order :
    (∀ a b : Timer, timer_less_than a b = true ↔
        a.timeout < b.timeout ∨ (a.timeout = b.timeout ∧ a.start_id < b.start_id)) ∧
    (∀ a : Timer, timer_less_than a a = false) ∧
    (∀ a b : Timer, timer_less_than a b = true → timer_less_than b a = false) ∧
    (∀ a b c : Timer, timer_less_than a b = true → timer_less_than b c = true →
        timer_less_than a c = true) ∧
    (∀ a b : Timer, timer_less_than a b = false → timer_less_than b a = false →
        a.timeout = b.timeout ∧ a.start_id = b.start_id) :=
  ⟨tlt_iff, tlt_irrefl, fun _ _ h => tlt_asymm h, fun _ _ _ h1 h2 => tlt_trans h1 h2,
   fun a b h1 h2 => by have := tlt_total a b h1 h2; omega⟩

/-- Witness for the comparator order properties at concrete records:
transitivity applied at deadlines 1 < 2 = 2 (tie broken by start_id). -/
theorem timer_less_than_order_witness :
    timer_less_than ⟨none, 1, 0, 5, false, false⟩ ⟨none, 2, 0, 8, false, false⟩ = true :=
  timer_less_than_strict_total_order.2.2.2.1
    ⟨none, 1, 0, 5, false, false⟩ ⟨none, 2, 0, 7, false, false⟩
    ⟨none, 2, 0, 8, false, false⟩ (by decide) (by decide)

/-- C3: `uv__next_timeout` returns -1 when the heap is empty, 0 when the
heap minimum's deadline is at or before `loop->time`, and otherwise the
difference `deadline - time` clamped from above to `INT_MAX`. It is a
pure function: it takes the state and returns only an `Int`. -/
theorem uv__next_timeout_spec (st : LoopState) :
    (heap_min st = none → uv__next_timeout st = -1) ∧
    (∀ i, heap_min st = some i → (getTimer st i).timeout ≤ st.time →
        uv__next_timeout st = 0) ∧
    (∀ i, heap_min st = some i → st.time < (getTimer st i).timeout →
        uv__next_timeout st
          = ((min ((getTimer st i).timeout - st.time) INT_MAX : Nat) : Int)) := by
  refine ⟨?_, ?_, ?_⟩
  · intro h
    unfold uv__next_timeout
    rw [h]
  · intro i h hdue
    unfold uv__next_timeout
    rw [h]
    simp [hdue]
  · intro i h hnot
    unfold uv__next_timeout
    rw [h]
    simp only [not_le.mpr hnot, if_false]
    congr 1
    by_cases hbig : (getTimer st i).timeout - st.time > INT_MAX
    · rw [if_pos hbig]
      omega
    · rw [if_neg hbig]
      omega

/-- Witness for C3 on concrete states: empty heap, a due minimum, and a
pending minimum 3 ticks away. -/
theorem uv__next_timeout_spec_witness :
    uv__next_timeout exStEmpty = -1 ∧
    uv__next_timeout { exStC3 with time := 20 } = 0 ∧
    uv__next_timeout exStC3 = ((min 3 INT_MAX : Nat) : Int) :=
  ⟨(uv__next_timeout_spec exStEmpty).1 rfl,
   (uv__next_timeout_spec _).2.1 0 rfl (by decide),
   (uv__next_timeout_spec exStC3).2.2 0 rfl (by decide)⟩

theorem getTimer_lt_of_active (st : LoopState) (i : Nat)
    (h : (getTimer st i).active = true) : i < st.handles.length := by
  by_contra hge
  unfold getTimer at h
  rw [List.getD_eq_default _ _ (le_of_not_lt hge)] at h
  simp at h

theorem uv_timer_start_fst_zero (st : LoopState) (i : Nat) (cb : Option Nat)
    (timeout rep : Nat) (hcl : (getTimer st i).closing = false) (hcb : cb ≠ none) :
    (uv_timer_start st i cb timeout rep).1 = 0 := by
  by_cases hact : (getTimer st i).active = true
  · rw [uv_timer_start_active_eq st i cb timeout rep hcl hcb hact
      (getTimer_lt_of_active st i hact)]
  · rw [uv_timer_start_inactive_eq st i cb timeout rep hcl hcb
      (Bool.eq_false_iff.mpr hact)]

/-- C4: the deadline stored by `uv_timer_start` is the saturating 64-bit
sum of `loop->time` and `timeout`: on u64 overflow it is clamped to
`U64_MAX` instead of being left wrapped. -/
theorem uv_timer_start_saturating (st : LoopState) (i : Nat) (cb : Option Nat)
    (timeout rep : Nat) (hcb : cb ≠ none)
    (hcl : (getTimer st i).closing = false) (hi : i < st.handles.length)
    (ht : st.time < 2 ^ 64) (hto : timeout < 2 ^ 64) :
    (getTimer (uv_timer_start st i cb timeout rep).2 i).timeout
      = min (st.time + timeout) U64_MAX := by
  rw [getTimer_start_self st i cb timeout rep hcl hcb hi]
  exact clamp_eq_min st.time timeout ht hto

/-- Witness for C4: `timeout = u64::MAX` with `time = 5 > 0` stores a
deadline saturated at exactly `U64_MAX`. -/
theorem uv_timer_start_saturating_witness :
    (getTimer (uv_timer_start exStC4 0 (some 1) (2 ^ 64 - 1) 0).2 0).timeout
        = min (exStC4.time + (2 ^ 64 - 1)) U64_MAX ∧
    min (exStC4.time + (2 ^ 64 - 1)) U64_MAX = U64_MAX :=
  ⟨uv_timer_start_saturating exStC4 0 (some 1) (2 ^ 64 - 1) 0 (by decide) (by decide)
      (by decide) (by decide) (by decide),
   by decide⟩

/-- C5: `uv_timer_start` returns `UV_EINVAL` exactly when the handle is
closing or the callback is NULL, and in that case returns the state
entirely unchanged (no field stores, no heap insertion, no counter
increment, no activation); in every other case it returns 0. -/
theorem uv_timer_start_einval_iff (st : LoopState) (i : Nat) (cb : Option Nat)
    (timeout rep : Nat) :
    ((uv_timer_start st i cb timeout rep).1 = UV_EINVAL ↔
        ((getTimer st i).closing = true ∨ cb = none)) ∧
    (((getTimer st i).closing = true ∨ cb = none) →
        uv_timer_start st i cb timeout rep = (UV_EINVAL, st)) ∧
    ((getTimer st i).closing = false → cb ≠ none →
        (uv_timer_start st i cb timeout rep).1 = 0) := by
  have hsucc : (getTimer st i).closing = false → cb ≠ none →
      (uv_timer_start st i cb timeout rep).1 = 0 :=
    fun hcl hcb => uv_timer_start_fst_zero st i cb timeout rep hcl hcb
  refine ⟨⟨?_, fun h => by rw [uv_timer_start_guard st i cb timeout rep h]⟩,
    fun h => uv_timer_start_guard st i cb timeout rep h, hsucc⟩
  intro h1
  by_cases hcl : (getTimer st i).closing = true
  · exact Or.inl hcl
  · by_cases hcb : cb = none
    · exact Or.inr hcb
    · exfalso
      rw [hsucc (Bool.eq_false_iff.mpr hcl) hcb] at h1
      exact absurd h1 (by decide)

/-- Witness for C5 on a concrete closing handle: the call fails with
`UV_EINVAL` and hands back the state untouched. -/
theorem uv_timer_start_einval_witness :
    uv_timer_start exStC5 0 (some 3) 5 0 = (UV_EINVAL, exStC5) :=
  (uv_timer_start_einval_iff exStC5 0 (some 3) 5 0).2.1 (Or.inl (by decide))

theorem uv_timer_again_guard (st : LoopState) (i : Nat)
    (h : (getTimer st i).timer_cb = none ∨ (getTimer st i).rep = 0) :
    uv_timer_again st i = (UV_EINVAL, st) := by
  unfold uv_timer_again
  rcases h with h | h
  · rw [if_pos (by rw [h]; rfl)]
  · rw [if_pos (by rw [h]; simp)]

theorem uv_timer_again_success (st : LoopState) (i : Nat)
    (hcb : (getTimer st i).timer_cb ≠ none) (hrep : (getTimer st i).rep ≠ 0) :
    uv_timer_again st i =
      (0, (uv_timer_start st i (getTimer st i).timer_cb
            (getTimer st i).rep (getTimer st i).rep).2) := by
  simp only [uv_timer_again, isNone_false hcb, Bool.false_or]
  rw [if_neg (by simp [hrep])]

/-- C6 counterexample: a closing handle with stored callback `some 7`
and repeat 4 (reachable by start then close): `uv_timer_again` returns
0 while the supposedly equivalent `uv_timer_start` call returns
`UV_EINVAL`, so they are not equivalent in returned result. -/
theorem uv_timer_again_not_equiv_start :
    (getTimer exStC6 0).timer_cb ≠ none ∧ (getTimer exStC6 0).rep ≠ 0 ∧
    (uv_timer_again exStC6 0).1 = 0 ∧
    (uv_timer_start exStC6 0 (getTimer exStC6 0).timer_cb (getTimer exStC6 0).rep
        (getTimer exStC6 0).rep).1 = UV_EINVAL ∧
    (uv_timer_again exStC6 0).1 ≠
      (uv_timer_start exStC6 0 (getTimer exStC6 0).timer_cb (getTimer exStC6 0).rep
          (getTimer exStC6 0).rep).1 := by
  decide

/-- C6 (amended): `uv_timer_again` fails with `UV_EINVAL` (state
untouched) exactly when the stored callback is NULL or `repeat` is 0;
otherwise it produces the same state as
`uv_timer_start(handle, handle->timer_cb, handle->repeat,
handle->repeat)` and returns 0 — which agrees with that start call's
result except on a closing handle, where start fails with `UV_EINVAL`
but again still reports 0. -/
theorem uv_timer_again_spec (st : LoopState) (i : Nat) :
    ((uv_timer_again st i).1 = UV_EINVAL ↔
        ((getTimer st i).timer_cb = none ∨ (getTimer st i).rep = 0)) ∧
    (((getTimer st i).timer_cb = none ∨ (getTimer st i).rep = 0) →
        uv_timer_again st i = (UV_EINVAL, st)) ∧
    ((getTimer st i).timer_cb ≠ none → (getTimer st i).rep ≠ 0 →
        uv_timer_again st i =
          (0, (uv_timer_start st i (getTimer st i).timer_cb
                (getTimer st i).rep (getTimer st i).rep).2)) ∧
    ((getTimer st i).timer_cb ≠ none → (getTimer st i).rep ≠ 0 →
        (getTimer st i).closing = false →
        uv_timer_again st i =
          uv_timer_start st i (getTimer st i).timer_cb
            (getTimer st i).rep (getTimer st i).rep) := by
  refine ⟨⟨?_, fun h => by rw [uv_timer_again_guard st i h]⟩,
    uv_timer_again_guard st i, uv_timer_again_success st i, ?_⟩
  · intro h1
    by_cases hcb : (getTimer st i).timer_cb = none
    · exact Or.inl hcb
    · by_cases hrep : (getTimer st i).rep = 0
      · exact Or.inr hrep
      · exfalso
        have h2 : (uv_timer_again st i).1 = 0 := by
          rw [uv_timer_again_success st i hcb hrep]
        rw [h2] at h1
        exact absurd h1 (by decide)
  · intro hcb hrep hcl
    rw [uv_timer_again_success st i hcb hrep]
    have h0 : (uv_timer_start st i (getTimer st i).timer_cb
        (getTimer st i).rep (getTimer st i).rep).1 = 0 :=
      uv_timer_start_fst_zero st i _ _ _ hcl hcb
    rw [← h0]

/-- Witness for the amended C6 at the closing concrete state: the
effect equivalence with the internal start call. -/
theorem uv_timer_again_spec_witness :
    uv_timer_again exStC6 0 =
      (0, (uv_timer_start exStC6 0 (getTimer exStC6 0).timer_cb
            (getTimer exStC6 0).rep (getTimer exStC6 0).rep).2) :=
  (uv_timer_again_spec exStC6 0).2.2.1 (by decide) (by decide)

/-- C8: on a closing handle holding a non-NULL callback and nonzero
repeat, `uv_timer_again` returns 0 and leaves the state untouched while
the `uv_timer_start` call it makes internally fails with `UV_EINVAL`:
the inner failure is not propagated, and the (inactive) timer stays
inactive and out of the heap. -/
theorem uv_timer_again_swallows_start_failure (st : LoopState) (i : Nat)
    (hcb : (getTimer st i).timer_cb ≠ none) (hrep : (getTimer st i).rep ≠ 0)
    (hcl : (getTimer st i).closing = true) :
    uv_timer_again st i = (0, st) ∧
    uv_timer_start st i (getTimer st i).timer_cb (getTimer st i).rep
        (getTimer st i).rep = (UV_EINVAL, st) ∧
    ((getTimer st i).active = false →
        (getTimer (uv_timer_again st i).2 i).active = false) ∧
    (i ∉ st.timer_heap → i ∉ (uv_timer_again st i).2.timer_heap) := by
  have hstart : uv_timer_start st i (getTimer st i).timer_cb (getTimer st i).rep
      (getTimer st i).rep = (UV_EINVAL, st) :=
    uv_timer_start_guard st i _ _ _ (Or.inl hcl)
  have hagain : uv_timer_again st i = (0, st) := by
    rw [uv_timer_again_success st i hcb hrep, hstart]
  exact ⟨hagain, hstart, fun h => by rw [hagain]; exact h, fun h => by rw [hagain]; exact h⟩

/-- Witness for C8 at the concrete closing state. -/
theorem uv_timer_again_swallows_witness :
    uv_timer_again exStC6 0 = (0, exStC6) ∧
    uv_timer_start exStC6 0 (getTimer exStC6 0).timer_cb (getTimer exStC6 0).rep
        (getTimer exStC6 0).rep = (UV_EINVAL, exStC6) :=
  ⟨(uv_timer_again_swallows_start_failure exStC6 0 (by decide) (by decide) (by decide)).1,
   (uv_timer_again_swallows_start_failure exStC6 0 (by decide) (by decide) (by decide)).2.1⟩

/-- C10: `uv_timer_init` registers the new handle with NULL callback,
zero repeat, inactive, and returns 0; on this fresh handle
`uv_timer_again` fails with `UV_EINVAL` (state unchanged) and
`uv_timer_get_repeat` returns 0. -/
theorem uv_timer_init_spec (st : LoopState) :
    (uv_timer_init st).1 = 0 ∧
    (getTimer (uv_timer_init st).2 st.handles.length).timer_cb = none ∧
    (getTimer (uv_timer_init st).2 st.handles.length).rep = 0 ∧
    (getTimer (uv_timer_init st).2 st.handles.length).active = false ∧
    uv_timer_again (uv_timer_init st).2 st.handles.length
      = (UV_EINVAL, (uv_timer_init st).2) ∧
    uv_timer_get_repeat (uv_timer_init st).2 st.handles.length = 0 := by
  have hfresh : getTimer (uv_timer_init st).2 st.handles.length
      = ⟨none, 0, 0, 0, false, false⟩ := by
    unfold uv_timer_init getTimer
    exact getD_concat_length st.handles _
  refine ⟨rfl, by rw [hfresh], by rw [hfresh], by rw [hfresh], ?_, by
    unfold uv_timer_get_repeat
    rw [hfresh]⟩
  exact uv_timer_again_guard _ _ (Or.inl (by rw [hfresh]))

theorem uv_timer_start_stop_start (st : LoopState) (i : Nat) (cb : Option Nat)
    (timeout rep : Nat) (hact : (getTimer st i).active = true)
    (hcl : (getTimer st i).closing = false) (hcb : cb ≠ none) :
    uv_timer_start st i cb timeout rep
      = uv_timer_start (uv_timer_stop st i).2 i cb timeout rep := by
  have hi : i < st.handles.length := getTimer_lt_of_active st i hact
  have hstop := uv_timer_stop_of_active st i hact
  have hg : getTimer (uv_timer_stop st i).2 i = { getTimer st i with active := false } := by
    rw [hstop]
    unfold getTimer
    exact getD_set_self _ _ _ (by simpa using hi)
  rw [uv_timer_start_active_eq st i cb timeout rep hcl hcb hact hi]
  rw [uv_timer_start_inactive_eq (uv_timer_stop st i).2 i cb timeout rep
    (by rw [hg]; exact hcl) hcb (by rw [hg])]
  rw [hstop]
  simp [List.set_set]

theorem uv_timer_start_heap (st : LoopState) (i : Nat) (cb : Option Nat)
    (timeout rep : Nat) (hcl : (getTimer st i).closing = false) (hcb : cb ≠ none) :
    (uv_timer_start st i cb timeout rep).2.timer_heap
      = i :: (if (getTimer st i).active = true then st.timer_heap.erase i
              else st.timer_heap) := by
  by_cases hact : (getTimer st i).active = true
  · rw [uv_timer_start_active_eq st i cb timeout rep hcl hcb hact
      (getTimer_lt_of_active st i hact), if_pos hact]
  · rw [uv_timer_start_inactive_eq st i cb timeout rep hcl hcb
      (Bool.eq_false_iff.mpr hact), if_neg hact]

theorem uv_timer_start_state (st : LoopState) (i : Nat) (cb : Option Nat)
    (timeout rep : Nat) (hcl : (getTimer st i).closing = false) (hcb : cb ≠ none) :
    (uv_timer_start st i cb timeout rep).2.time = st.time ∧
    (uv_timer_start st i cb timeout rep).2.handles.length = st.handles.length ∧
    (uv_timer_start st i cb timeout rep).2.timer_counter
      = (st.timer_counter + 1) % 2 ^ 64 := by
  by_cases hact : (getTimer st i).active = true
  · rw [uv_timer_start_active_eq st i cb timeout rep hcl hcb hact
      (getTimer_lt_of_active st i hact)]
    simp
  · rw [uv_timer_start_inactive_eq st i cb timeout rep hcl hcb
      (Bool.eq_false_iff.mpr hact)]
    simp

/-- C7: starting an already-active handle implicitly stops it first: the
second of two consecutive starts on the same handle is the same call as
stop-then-start, both starts succeed, and afterwards the heap holds
exactly one record for the handle, carrying the second call's callback,
deadline, and repeat, and the newest sequence id. -/
theorem uv_timer_start_twice (st : LoopState) (i : Nat) (cb1 cb2 : Option Nat)
    (to1 rep1 to2 rep2 : Nat) (hwf : WFcore st) (hi : i < st.handles.length)
    (hcl : (getTimer st i).closing = false) (hcb1 : cb1 ≠ none) (hcb2 : cb2 ≠ none) :
    ∀ st1, st1 = (uv_timer_start st i cb1 to1 rep1).2 →
      (uv_timer_start st1 i cb2 to2 rep2
          = uv_timer_start (uv_timer_stop st1 i).2 i cb2 to2 rep2) ∧
      (uv_timer_start st i cb1 to1 rep1).1 = 0 ∧
      (uv_timer_start st1 i cb2 to2 rep2).1 = 0 ∧
      (uv_timer_start st1 i cb2 to2 rep2).2.timer_heap.count i = 1 ∧
      getTimer (uv_timer_start st1 i cb2 to2 rep2).2 i
        = { timer_cb := cb2,
            timeout := if (st.time + to2) % 2 ^ 64 < to2 then U64_MAX
                       else (st.time + to2) % 2 ^ 64,
            rep := rep2, start_id := st1.timer_counter, active := true,
            closing := false } := by
  intro st1 hst1
  have hstate := uv_timer_start_state st i cb1 to1 rep1 hcl hcb1
  have hg1 : getTimer st1 i
      = { timer_cb := cb1,
          timeout := if (st.time + to1) % 2 ^ 64 < to1 then U64_MAX
                     else (st.time + to1) % 2 ^ 64,
          rep := rep1, start_id := st.timer_counter, active := true,
          closing := false } := by
    rw [hst1]
    exact getTimer_start_self st i cb1 to1 rep1 hcl hcb1 hi
  have hact1 : (getTimer st1 i).active = true := by rw [hg1]
  have hcl1 : (getTimer st1 i).closing = false := by rw [hg1]
  have hi1 : i < st1.handles.length := by
    rw [hst1, hstate.2.1]
    exact hi
  have htime1 : st1.time = st.time := by
    rw [hst1]
    exact hstate.1
  refine ⟨uv_timer_start_stop_start st1 i cb2 to2 rep2 hact1 hcl1 hcb2,
    uv_timer_start_fst_zero st i cb1 to1 rep1 hcl hcb1,
    uv_timer_start_fst_zero st1 i cb2 to2 rep2 hcl1 hcb2, ?_, ?_⟩
  · have hheap2 : (uv_timer_start st1 i cb2 to2 rep2).2.timer_heap
        = i :: st1.timer_heap.erase i := by
      rw [uv_timer_start_heap st1 i cb2 to2 rep2 hcl1 hcb2, if_pos hact1]
    have hheap1 : st1.timer_heap
        = i :: (if (getTimer st i).active = true then st.timer_heap.erase i
                else st.timer_heap) := by
      rw [hst1]
      exact uv_timer_start_heap st i cb1 to1 rep1 hcl hcb1
    have hcount0 : (if (getTimer st i).active = true then st.timer_heap.erase i
        else st.timer_heap).count i = 0 := by
      by_cases hact : (getTimer st i).active = true
      · rw [if_pos hact, List.count_erase_self]
        have hle := List.nodup_iff_count_le_one.mp hwf.1 i
        omega
      · rw [if_neg hact]
        refine List.count_eq_zero.mpr ?_
        intro hmem
        exact hact ((hwf.2.2.1 i (List.mem_range.mpr hi)).mpr hmem)
    rw [hheap2, hheap1, List.erase_cons_head]
    rw [List.count_cons_self, hcount0]
  · rw [getTimer_start_self st1 i cb2 to2 rep2 hcl1 hcb2 hi1, htime1]

/-- Witness for C7 on a concrete handle: after start-then-start the
handle sits in the heap exactly once. -/
theorem uv_timer_start_twice_witness :
    (uv_timer_start (uv_timer_start exStC7 0 (some 1) 4 0).2 0
        (some 2) 6 1).2.timer_heap.count 0 = 1 :=
  (uv_timer_start_twice exStC7 0 (some 1) (some 2) 4 0 6 1
    (by unfold WFcore; decide) (by decide) (by decide) (by decide) (by decide)
    _ rfl).2.2.2.1

theorem getD_set_cases (l : List Timer) (m i : Nat) (X : Timer) (hm : m < l.length) :
    (l.set m X).getD i default = if i = m then X else l.getD i default := by
  by_cases h : i = m
  · rw [if_pos h, h]
    exact getD_set_self _ _ _ hm
  · rw [if_neg h]
    exact getD_set_ne _ _ _ _ (fun e => h e.symm)

theorem run_step_eq (st : LoopState) (m : Nat)
    (hact : (getTimer st m).active = true)
    (hcb : (getTimer st m).timer_cb ≠ none)
    (hcl : (getTimer st m).closing = false) :
    (uv_timer_again (uv_timer_stop st m).2 m).2 =
      if (getTimer st m).rep = 0 then
        { time := st.time, timer_counter := st.timer_counter,
          timer_heap := st.timer_heap.erase m,
          handles := st.handles.set m { getTimer st m with active := false } }
      else
        { time := st.time, timer_counter := (st.timer_counter + 1) % 2 ^ 64,
          timer_heap := m :: st.timer_heap.erase m,
          handles := st.handles.set m
            { timer_cb := (getTimer st m).timer_cb,
              timeout := if (st.time + (getTimer st m).rep) % 2 ^ 64 < (getTimer st m).rep
                         then U64_MAX else (st.time + (getTimer st m).rep) % 2 ^ 64,
              rep := (getTimer st m).rep, start_id := st.timer_counter,
              active := true, closing := false } } := by
  have hi := getTimer_lt_of_active st m hact
  have hstop := uv_timer_stop_of_active st m hact
  have hg : getTimer (uv_timer_stop st m).2 m = { getTimer st m with active := false } := by
    rw [hstop]
    unfold getTimer
    exact getD_set_self _ _ _ (by simpa using hi)
  by_cases hrep : (getTimer st m).rep = 0
  · rw [if_pos hrep]
    rw [uv_timer_again_guard _ _ (Or.inr (by rw [hg]; exact hrep))]
    rw [hstop]
  · rw [if_neg hrep]
    rw [uv_timer_again_success _ _ (by rw [hg]; exact hcb) (by rw [hg]; exact hrep)]
    rw [uv_timer_start_inactive_eq _ _ _ _ _ (by rw [hg]; exact hcl)
      (by rw [hg]; exact hcb) (by rw [hg])]
    rw [hg, hstop]
    simp [List.set_set]

theorem step_facts (st : LoopState) (m : Nat) (hwf : WFcore st) (hmdue : m ∈ dueIds st)
    (ht64 : st.time < 2 ^ 64) :
    ∀ st2, st2 = (uv_timer_again (uv_timer_stop st m).2 m).2 →
      WFcore st2 ∧
      st2.time = st.time ∧
      (∀ j, j ≠ m → getTimer st2 j = getTimer st j) ∧
      (∀ j, j ≠ m → (j ∈ st2.timer_heap ↔ j ∈ st.timer_heap)) ∧
      (getTimer st2 m).timer_cb = (getTimer st m).timer_cb ∧
      (st.time < U64_MAX → m ∉ dueIds st2) ∧
      (st.time < U64_MAX → (dueIds st).Perm (m :: dueIds st2)) ∧
      ((getTimer st m).rep = 0 →
          m ∉ st2.timer_heap ∧ (getTimer st2 m).active = false ∧
          st2.timer_counter = st.timer_counter ∧
          st2.timer_heap = st.timer_heap.erase m) ∧
      ((getTimer st m).rep ≠ 0 →
          m ∈ st2.timer_heap ∧
          getTimer st2 m
            = { timer_cb := (getTimer st m).timer_cb,
                timeout := min (st.time + (getTimer st m).rep) U64_MAX,
                rep := (getTimer st m).rep, start_id := st.timer_counter,
                active := true, closing := false } ∧
          st2.timer_counter = (st.timer_counter + 1) % 2 ^ 64 ∧
          st2.timer_heap = m :: st.timer_heap.erase m) := by
  intro st2 hst2
  obtain ⟨hnd, hlt, hiff, hmem⟩ := hwf
  have hmheap : m ∈ st.timer_heap := (List.mem_filter.mp hmdue).1
  have hdue : (getTimer st m).timeout ≤ st.time := by
    have h2 := (List.mem_filter.mp hmdue).2
    simpa using h2
  have hm_lt : m < st.handles.length := hlt m hmheap
  have hact : (getTimer st m).active = true := (hiff m (List.mem_range.mpr hm_lt)).mpr hmheap
  obtain ⟨hcb, hcl, hto64, hrep64⟩ := hmem m hmheap
  rw [run_step_eq st m hact hcb hcl] at hst2
  by_cases hrep : (getTimer st m).rep = 0
  · -- one-shot: the timer stays stopped
    rw [if_pos hrep] at hst2
    have hget : ∀ j, getTimer st2 j
        = if j = m then { getTimer st m with active := false } else getTimer st j := by
      intro j
      rw [hst2]
      exact getD_set_cases st.handles m j _ hm_lt
    have htime2 : st2.time = st.time := by rw [hst2]
    have hcnt2 : st2.timer_counter = st.timer_counter := by rw [hst2]
    have hheap2 : st2.timer_heap = st.timer_heap.erase m := by rw [hst2]
    have hlen2 : st2.handles.length = st.handles.length := by
      rw [hst2]
      simp
    have hgetm : getTimer st2 m = { getTimer st m with active := false } := by
      rw [hget m, if_pos rfl]
    have hgetne : ∀ j, j ≠ m → getTimer st2 j = getTimer st j := by
      intro j hj
      rw [hget j, if_neg hj]
    have hmemiff : ∀ j, j ≠ m → (j ∈ st2.timer_heap ↔ j ∈ st.timer_heap) := by
      intro j hj
      rw [hheap2]
      exact List.mem_erase_of_ne hj
    have hmnot : m ∉ st2.timer_heap := by
      rw [hheap2]
      exact hnd.not_mem_erase
    have hfil : dueIds st2
        = (st.timer_heap.erase m).filter
            (fun i => decide ((getTimer st i).timeout ≤ st.time)) := by
      unfold dueIds
      rw [hheap2, htime2]
      refine List.filter_congr ?_
      intro a ha
      have ha2 : a ≠ m := by
        intro h
        exact hnd.not_mem_erase (h ▸ ha)
      rw [hgetne a ha2]
    have hperm : (dueIds st).Perm (m :: dueIds st2) := by
      rw [hfil]
      have h1 : st.timer_heap.Perm (m :: st.timer_heap.erase m) :=
        List.perm_cons_erase hmheap
      have h2 := h1.filter (fun i => decide ((getTimer st i).timeout ≤ st.time))
      unfold dueIds
      refine h2.trans ?_
      rw [List.filter_cons_of_pos (by exact decide_eq_true hdue)]
    refine ⟨⟨?_, ?_, ?_, ?_⟩, htime2, hgetne, hmemiff, by rw [hgetm], fun _ => ?_,
      fun _ => hperm, fun _ => ⟨hmnot, by rw [hgetm], hcnt2, hheap2⟩,
      fun h => absurd hrep h⟩
    · rw [hheap2]
      exact hnd.erase m
    · intro j hj
      rw [hlen2]
      rw [hheap2] at hj
      exact hlt j (List.mem_of_mem_erase hj)
    · intro j hj
      rw [hlen2] at hj
      by_cases hjm : j = m
      · subst hjm
        rw [hgetm]
        simp [hmnot]
      · rw [hgetne j hjm, hmemiff j hjm]
        exact hiff j hj
    · intro j hj
      have hjm : j ≠ m := by
        intro h
        exact hmnot (h ▸ hj)
      rw [hgetne j hjm]
      exact hmem j ((hmemiff j hjm).mp hj)
    · intro h
      exact hmnot ((List.mem_filter.mp h).1)
  · -- repeating: the timer is re-armed one repeat interval ahead
    rw [if_neg hrep] at hst2
    have hclamp : (if (st.time + (getTimer st m).rep) % 2 ^ 64 < (getTimer st m).rep
        then U64_MAX else (st.time + (getTimer st m).rep) % 2 ^ 64)
        = min (st.time + (getTimer st m).rep) U64_MAX :=
      clamp_eq_min st.time (getTimer st m).rep ht64 hrep64
    rw [hclamp] at hst2
    have hget : ∀ j, getTimer st2 j
        = if j = m then
            { timer_cb := (getTimer st m).timer_cb,
              timeout := min (st.time + (getTimer st m).rep) U64_MAX,
              rep := (getTimer st m).rep, start_id := st.timer_counter,
              active := true, closing := false }
          else getTimer st j := by
      intro j
      rw [hst2]
      exact getD_set_cases st.handles m j _ hm_lt
    have htime2 : st2.time = st.time := by rw [hst2]
    have hcnt2 : st2.timer_counter = (st.timer_counter + 1) % 2 ^ 64 := by rw [hst2]
    have hheap2 : st2.timer_heap = m :: st.timer_heap.erase m := by rw [hst2]
    have hlen2 : st2.handles.length = st.handles.length := by
      rw [hst2]
      simp
    have hgetm : getTimer st2 m
        = { timer_cb := (getTimer st m).timer_cb,
            timeout := min (st.time + (getTimer st m).rep) U64_MAX,
            rep := (getTimer st m).rep, start_id := st.timer_counter,
            active := true, closing := false } := by
      rw [hget m, if_pos rfl]
    have hgetne : ∀ j, j ≠ m → getTimer st2 j = getTimer st j := by
      intro j hj
      rw [hget j, if_neg hj]
    have hmemiff : ∀ j, j ≠ m → (j ∈ st2.timer_heap ↔ j ∈ st.timer_heap) := by
      intro j hj
      rw [hheap2]
      constructor
      · intro h
        rcases List.mem_cons.mp h with h | h
        · exact absurd h hj
        · exact List.mem_of_mem_erase h
      · intro h
        exact List.mem_cons_of_mem m ((List.mem_erase_of_ne hj).mpr h)
    have hmin2 : m ∈ st2.timer_heap := by
      rw [hheap2]
      exact List.mem_cons_self m _
    have hnotdue2 : st.time < U64_MAX → ¬ ((getTimer st2 m).timeout ≤ st2.time) := by
      intro htime
      rw [hgetm, htime2]
      have : 1 ≤ (getTimer st m).rep := Nat.one_le_iff_ne_zero.mpr hrep
      unfold U64_MAX
      unfold U64_MAX at htime
      simp only [min_def]
      split_ifs <;> omega
    have hfil : st.time < U64_MAX → dueIds st2
        = (st.timer_heap.erase m).filter
            (fun i => decide ((getTimer st i).timeout ≤ st.time)) := by
      intro htime
      have hnd2 := hnotdue2 htime
      rw [htime2] at hnd2
      unfold dueIds
      rw [hheap2, htime2]
      rw [List.filter_cons_of_neg (by simpa using hnd2)]
      refine List.filter_congr ?_
      intro a ha
      have ha2 : a ≠ m := by
        intro h
        exact hnd.not_mem_erase (h ▸ ha)
      rw [hgetne a ha2]
    have hperm : st.time < U64_MAX → (dueIds st).Perm (m :: dueIds st2) := by
      intro htime
      rw [hfil htime]
      have h1 : st.timer_heap.Perm (m :: st.timer_heap.erase m) :=
        List.perm_cons_erase hmheap
      have h2 := h1.filter (fun i => decide ((getTimer st i).timeout ≤ st.time))
      unfold dueIds
      refine h2.trans ?_
      rw [List.filter_cons_of_pos (by exact decide_eq_true hdue)]
    refine ⟨⟨?_, ?_, ?_, ?_⟩, htime2, hgetne, hmemiff, by rw [hgetm], ?_, hperm,
      fun h => absurd h hrep, fun _ => ⟨hmin2, hgetm, hcnt2, hheap2⟩⟩
    · rw [hheap2]
      exact List.nodup_cons.mpr ⟨hnd.not_mem_erase, hnd.erase m⟩
    · intro j hj
      rw [hlen2]
      rw [hheap2] at hj
      rcases List.mem_cons.mp hj with h | h
      · exact h ▸ hm_lt
      · exact hlt j (List.mem_of_mem_erase h)
    · intro j hj
      rw [hlen2] at hj
      by_cases hjm : j = m
      · subst hjm
        rw [hgetm]
        simp [hmin2]
      · rw [hgetne j hjm, hmemiff j hjm]
        exact hiff j hj
    · intro j hj
      by_cases hjm : j = m
      · subst hjm
        rw [hgetm]
        refine ⟨hcb, rfl, ?_, hrep64⟩
        unfold U64_MAX
        simp only [min_def]
        split_ifs <;> omega
      · rw [hgetne j hjm]
        exact hmem j ((hmemiff j hjm).mp hj)
    · intro htime h
      have h2 := (List.mem_filter.mp h).2
      exact hnotdue2 htime (by simpa using h2)

theorem uv__run_timers_succ (st : LoopState) (acc : List (Nat × Option Nat)) (fuel : Nat) :
    uv__run_timers st acc (fuel + 1) =
      match heap_min st with
      | none => some (st, acc)
      | some i =>
        if st.time < (getTimer st i).timeout then some (st, acc)
        else
          uv__run_timers (uv_timer_again (uv_timer_stop st i).2 i).2
            (acc ++ [(i, (getTimer (uv_timer_again (uv_timer_stop st i).2 i).2 i).timer_cb)])
            fuel := rfl

theorem uv__run_timers_succ_none (st : LoopState) (acc : List (Nat × Option Nat))
    (fuel : Nat) (h : heap_min st = none) :
    uv__run_timers st acc (fuel + 1) = some (st, acc) := by
  rw [uv__run_timers_succ, h]

theorem uv__run_timers_succ_break (st : LoopState) (acc : List (Nat × Option Nat))
    (fuel : Nat) (m : Nat) (h : heap_min st = some m)
    (hnd : st.time < (getTimer st m).timeout) :
    uv__run_timers st acc (fuel + 1) = some (st, acc) := by
  rw [uv__run_timers_succ, h]
  exact if_pos hnd

theorem uv__run_timers_succ_step (st : LoopState) (acc : List (Nat × Option Nat))
    (fuel : Nat) (m : Nat) (h : heap_min st = some m)
    (hdue : (getTimer st m).timeout ≤ st.time) :
    uv__run_timers st acc (fuel + 1) =
      uv__run_timers (uv_timer_again (uv_timer_stop st m).2 m).2
        (acc ++ [(m, (getTimer (uv_timer_again (uv_timer_stop st m).2 m).2 m).timer_cb)])
        fuel := by
  rw [uv__run_timers_succ, h]
  exact if_neg (by omega)

theorem run_timers_no_due (st : LoopState) (acc : List (Nat × Option Nat)) (fuel : Nat)
    (h : dueIds st = []) : uv__run_timers st acc (fuel + 1) = some (st, acc) := by
  cases hmin : heap_min st with
  | none => exact uv__run_timers_succ_none st acc fuel hmin
  | some m =>
    have hmem := heap_min_list_mem st st.timer_heap m hmin
    have hnotdue : ¬ ((getTimer st m).timeout ≤ st.time) := by
      intro hle
      have hm : m ∈ dueIds st := List.mem_filter.mpr ⟨hmem, by simpa using hle⟩
      rw [h] at hm
      cases hm
    exact uv__run_timers_succ_break st acc fuel m hmin (by omega)

theorem heap_min_due (st : LoopState) (h : dueIds st ≠ []) :
    ∃ m, heap_min st = some m ∧ (getTimer st m).timeout ≤ st.time ∧ m ∈ dueIds st := by
  have hne : st.timer_heap ≠ [] := by
    intro h2
    apply h
    unfold dueIds
    rw [h2]
    rfl
  cases hmin : heap_min st with
  | none => exact absurd ((heap_min_list_eq_none st st.timer_heap).mp hmin) hne
  | some m =>
    obtain ⟨j, hj⟩ := List.exists_mem_of_ne_nil (dueIds st) h
    have hjheap : j ∈ st.timer_heap := (List.mem_filter.mp hj).1
    have hjdue : (getTimer st j).timeout ≤ st.time := by
      have h2 := (List.mem_filter.mp hj).2
      simpa using h2
    have hleast := heap_min_list_least st st.timer_heap m hmin j hjheap
    have h3 := (tlt_false_iff _ _).mp hleast
    have hmdue : (getTimer st m).timeout ≤ st.time := by omega
    have hmheap := heap_min_list_mem st st.timer_heap m hmin
    exact ⟨m, rfl, hmdue, List.mem_filter.mpr ⟨hmheap, by simpa using hmdue⟩⟩

theorem run_timers_main (n : Nat) : ∀ (st : LoopState), WF st → st.time < U64_MAX →
    st.timer_counter + n < 2 ^ 64 → (dueIds st).length = n →
    ∀ acc, ∃ st' fired,
      uv__run_timers st acc (n + 1) = some (st', acc ++ fired) ∧
      (fired.map Prod.fst).Perm (dueIds st) ∧
      (fired.map Prod.fst).Pairwise
        (fun i j => timer_less_than (getTimer st i) (getTimer st j) = true) ∧
      (∀ p ∈ fired, p.2 = (getTimer st p.1).timer_cb) ∧
      (∀ i ∈ dueIds st, (getTimer st i).rep = 0 →
          (getTimer st' i).active = false ∧ i ∉ st'.timer_heap) ∧
      (∀ i ∈ dueIds st, (getTimer st i).rep ≠ 0 →
          (getTimer st' i).active = true ∧ i ∈ st'.timer_heap ∧
          (getTimer st' i).timeout = min (st.time + (getTimer st i).rep) U64_MAX ∧
          (getTimer st' i).rep = (getTimer st i).rep ∧
          (getTimer st' i).timer_cb = (getTimer st i).timer_cb) ∧
      (∀ i ∈ st.timer_heap, i ∉ dueIds st →
          getTimer st' i = getTimer st i ∧ i ∈ st'.timer_heap) ∧
      (∀ i, i ∉ st.timer_heap → getTimer st' i = getTimer st i ∧ i ∉ st'.timer_heap) ∧
      st'.time = st.time ∧
      dueIds st' = [] := by
  induction n with
  | zero =>
    intro st hwf htime hcnt hlen acc
    have hnil : dueIds st = [] := List.length_eq_zero.mp hlen
    refine ⟨st, [], by rw [List.append_nil]; exact run_timers_no_due st acc 0 hnil,
      by rw [hnil]; exact List.Perm.refl _, List.Pairwise.nil,
      fun p hp => absurd hp (List.not_mem_nil p),
      fun i hi => absurd (hnil ▸ hi) (List.not_mem_nil i),
      fun i hi => absurd (hnil ▸ hi) (List.not_mem_nil i),
      fun i hi _ => ⟨rfl, hi⟩, fun i hi => ⟨rfl, hi⟩, rfl, hnil⟩
  | succ n ih =>
    intro st hwf htime hcnt hlen acc
    obtain ⟨hwfc, hord⟩ := hwf
    have hnnil : dueIds st ≠ [] := by
      intro h
      rw [h] at hlen
      cases hlen
    obtain ⟨m, hmin, hmdue_t, hmdue⟩ := heap_min_due st hnnil
    have hmheap : m ∈ st.timer_heap := (List.mem_filter.mp hmdue).1
    have hleast := heap_min_list_least st st.timer_heap m hmin
    obtain ⟨hwf2, htime2, hgetne, hmemiff, hcbm, hmnotdueC, hpermC, hzero, hnonzero⟩ :=
      step_facts st m hwfc hmdue (by unfold U64_MAX at htime; omega) _ rfl
    have hmnotdue := hmnotdueC htime
    have hperm := hpermC htime
    have hnowrap : st.timer_counter + 1 < 2 ^ 64 := by omega
    have hord2 : WFord (uv_timer_again (uv_timer_stop st m).2 m).2 := by
      by_cases hrep0 : (getTimer st m).rep = 0
      · obtain ⟨hmout, hmact, hcnt2, _⟩ := hzero hrep0
        constructor
        · intro i hi
          have him : i ≠ m := fun h => hmout (h ▸ hi)
          rw [hcnt2, hgetne i him]
          exact hord.1 i ((hmemiff i him).mp hi)
        · intro i hi j hj hij
          have him : i ≠ m := fun h => hmout (h ▸ hi)
          have hjm : j ≠ m := fun h => hmout (h ▸ hj)
          rw [hgetne i him, hgetne j hjm]
          exact hord.2 i ((hmemiff i him).mp hi) j ((hmemiff j hjm).mp hj) hij
      · obtain ⟨hmin2, hgetm, hcnt2, _⟩ := hnonzero hrep0
        have hcnt2' : (uv_timer_again (uv_timer_stop st m).2 m).2.timer_counter
            = st.timer_counter + 1 := by
          rw [hcnt2]
          exact Nat.mod_eq_of_lt hnowrap
        have hsidm : (getTimer (uv_timer_again (uv_timer_stop st m).2 m).2 m).start_id
            = st.timer_counter := by
          rw [hgetm]
        constructor
        · intro i hi
          by_cases him : i = m
          · rw [him, hcnt2', hsidm]
            omega
          · rw [hcnt2', hgetne i him]
            have := hord.1 i ((hmemiff i him).mp hi)
            omega
        · intro i hi j hj hij
          by_cases him : i = m
          · have hjm : j ≠ m := fun h => hij (by rw [him, h])
            rw [him, hsidm, hgetne j hjm]
            have := hord.1 j ((hmemiff j hjm).mp hj)
            omega
          · by_cases hjm : j = m
            · rw [hjm, hsidm, hgetne i him]
              have := hord.1 i ((hmemiff i him).mp hi)
              omega
            · rw [hgetne i him, hgetne j hjm]
              exact hord.2 i ((hmemiff i him).mp hi) j ((hmemiff j hjm).mp hj) hij
    have hlen2 : (dueIds (uv_timer_again (uv_timer_stop st m).2 m).2).length = n := by
      have h2 := hperm.length_eq
      rw [hlen] at h2
      simp only [List.length_cons] at h2
      omega
    have hcnt2le : (uv_timer_again (uv_timer_stop st m).2 m).2.timer_counter + n < 2 ^ 64 := by
      by_cases hrep0 : (getTimer st m).rep = 0
      · rw [(hzero hrep0).2.2.1]
        omega
      · rw [(hnonzero hrep0).2.2.1, Nat.mod_eq_of_lt hnowrap]
        omega
    obtain ⟨st', fired2, hrun2, hperm2, hpair2, hcb2, hone2, hrepe2, hnond2, hout2,
        htime2', hdue2'⟩ :=
      ih (uv_timer_again (uv_timer_stop st m).2 m).2 ⟨hwf2, hord2⟩
        (by rw [htime2]; exact htime) hcnt2le hlen2
        (acc ++ [(m, (getTimer (uv_timer_again (uv_timer_stop st m).2 m).2 m).timer_cb)])
    have hXdue : ∀ j, j ∈ dueIds (uv_timer_again (uv_timer_stop st m).2 m).2 →
        j ≠ m ∧ j ∈ st.timer_heap := by
      intro j hj
      have hjm : j ≠ m := fun h => hmnotdue (h ▸ hj)
      exact ⟨hjm, (hmemiff j hjm).mp (List.mem_filter.mp hj).1⟩
    refine ⟨st',
      (m, (getTimer (uv_timer_again (uv_timer_stop st m).2 m).2 m).timer_cb) :: fired2,
      ?_, ?_, ?_, ?_, ?_, ?_, ?_, ?_, by rw [htime2', htime2], hdue2'⟩
    · rw [uv__run_timers_succ_step st acc (n + 1) m hmin hmdue_t, hrun2,
        List.append_assoc, List.singleton_append]
    · simp only [List.map_cons]
      exact (hperm2.cons m).trans hperm.symm
    · simp only [List.map_cons]
      refine List.pairwise_cons.mpr ⟨?_, ?_⟩
      · intro j hj
        have hjX : j ∈ dueIds (uv_timer_again (uv_timer_stop st m).2 m).2 :=
          hperm2.mem_iff.mp hj
        obtain ⟨hjm, hjheap⟩ := hXdue j hjX
        exact tlt_strictify (hleast j hjheap)
          (hord.2 j hjheap m hmheap hjm)
      · refine List.Pairwise.imp_of_mem ?_ hpair2
        intro a b ha hb hab
        obtain ⟨ham, _⟩ := hXdue a (hperm2.mem_iff.mp ha)
        obtain ⟨hbm, _⟩ := hXdue b (hperm2.mem_iff.mp hb)
        rw [hgetne a ham, hgetne b hbm] at hab
        exact hab
    · intro p hp
      rcases List.mem_cons.mp hp with rfl | hp2
      · exact hcbm
      · have hp1 : p.1 ∈ dueIds (uv_timer_again (uv_timer_stop st m).2 m).2 :=
          hperm2.mem_iff.mp (List.mem_map_of_mem Prod.fst hp2)
        obtain ⟨hpm, _⟩ := hXdue p.1 hp1
        rw [hcb2 p hp2, hgetne p.1 hpm]
    · intro i hi hrep_i
      rcases List.mem_cons.mp (hperm.mem_iff.mp hi) with rfl | hiX
      · obtain ⟨hmout, hmact, _, _⟩ := hzero hrep_i
        obtain ⟨heq, hnm⟩ := hout2 i hmout
        rw [heq]
        exact ⟨hmact, hnm⟩
      · obtain ⟨him, _⟩ := hXdue i hiX
        have := hone2 i hiX (by rw [hgetne i him]; exact hrep_i)
        exact this
    · intro i hi hrep_i
      rcases List.mem_cons.mp (hperm.mem_iff.mp hi) with rfl | hiX
      · obtain ⟨hmin2, hgetm, _, _⟩ := hnonzero hrep_i
        obtain ⟨heq, hm'⟩ := hnond2 i hmin2 hmnotdue
        rw [heq, hgetm]
        exact ⟨rfl, hm', rfl, rfl, rfl⟩
      · obtain ⟨him, _⟩ := hXdue i hiX
        have h6 := hrepe2 i hiX (by rw [hgetne i him]; exact hrep_i)
        rw [hgetne i him, htime2] at h6
        exact h6
    · intro i hi hnd_i
      have him : i ≠ m := fun h => hnd_i (h ▸ hmdue)
      have hiX : i ∈ (uv_timer_again (uv_timer_stop st m).2 m).2.timer_heap :=
        (hmemiff i him).mpr hi
      have hndX : i ∉ dueIds (uv_timer_again (uv_timer_stop st m).2 m).2 := by
        intro h
        exact hnd_i (hperm.mem_iff.mpr (List.mem_cons_of_mem m h))
      obtain ⟨heq, hm'⟩ := hnond2 i hiX hndX
      rw [heq, hgetne i him]
      exact ⟨rfl, hm'⟩
    · intro i hi
      have him : i ≠ m := fun h => hi (h ▸ hmheap)
      have hiX : i ∉ (uv_timer_again (uv_timer_stop st m).2 m).2.timer_heap := by
        intro h
        exact hi ((hmemiff i him).mp h)
      obtain ⟨heq, hm'⟩ := hout2 i hiX
      rw [heq, hgetne i him]
      exact ⟨rfl, hm'⟩

theorem run_timers_saturated_none (fuel : Nat) :
    ∀ (st : LoopState) (acc : List (Nat × Option Nat)),
      WFcore st → st.time = U64_MAX →
      (∃ i, i ∈ st.timer_heap ∧ (getTimer st i).timeout ≤ st.time ∧
        (getTimer st i).rep ≠ 0) →
      uv__run_timers st acc fuel = none := by
  induction fuel with
  | zero =>
    intro st acc _ _ _
    rfl
  | succ fuel ih =>
    rintro st acc hwfc htime ⟨i, hiheap, hidue, hirep⟩
    have hidue' : i ∈ dueIds st := List.mem_filter.mpr ⟨hiheap, by simpa using hidue⟩
    have hnnil : dueIds st ≠ [] := by
      intro h
      rw [h] at hidue'
      cases hidue'
    obtain ⟨m, hmin, hmdue_t, hmdue⟩ := heap_min_due st hnnil
    rw [uv__run_timers_succ_step st acc fuel m hmin hmdue_t]
    have ht64 : st.time < 2 ^ 64 := by
      rw [htime]
      unfold U64_MAX
      omega
    obtain ⟨hwf2, htime2, hgetne, hmemiff, hcbm, _, _, hzero, hnonzero⟩ :=
      step_facts st m hwfc hmdue ht64 _ rfl
    refine ih _ _ hwf2 (by rw [htime2]; exact htime) ?_
    by_cases hrepm : (getTimer st m).rep = 0
    · have him : i ≠ m := fun h => hirep (h ▸ hrepm)
      refine ⟨i, (hmemiff i him).mpr hiheap, ?_, ?_⟩
      · rw [hgetne i him, htime2]
        exact hidue
      · rw [hgetne i him]
        exact hirep
    · obtain ⟨hmin2, hgetm, _, _⟩ := hnonzero hrepm
      refine ⟨m, hmin2, ?_, ?_⟩
      · rw [hgetm, htime2]
        show min (st.time + (getTimer st m).rep) U64_MAX ≤ st.time
        rw [htime]
        exact min_le_right _ _
      · rw [hgetm]
        exact hrepm

/-- C1: on a well-formed state with `time < U64_MAX` and an unexhausted
sequence counter, `uv__run_timers` completes within `|due| + 1`
iterations of heap-min extraction and fires exactly the due timers —
each by stop, then an `uv_timer_again` re-arm attempt, then one recorded
callback invocation — in ascending `(deadline, sequence_id)` order; a
repeating timer fired at tick `t` is re-armed with deadline `t + repeat`
(saturated), a one-shot timer ends stopped and absent from the heap,
all other timers are untouched, and the loop stops with the heap empty
or its minimum not yet due (no due timer remains). -/
theorem uv__run_timers_spec (st : LoopState) (hwf : WF st) (htime : st.time < U64_MAX)
    (hcnt : st.timer_counter + (dueIds st).length < 2 ^ 64) :
    ∃ st' fired,
      uv__run_timers st [] ((dueIds st).length + 1) = some (st', fired) ∧
      (fired.map Prod.fst).Perm (dueIds st) ∧
      (fired.map Prod.fst).Pairwise
        (fun i j => timer_less_than (getTimer st i) (getTimer st j) = true) ∧
      (∀ p ∈ fired, p.2 = (getTimer st p.1).timer_cb) ∧
      (∀ i ∈ dueIds st, (getTimer st i).rep = 0 →
          (getTimer st' i).active = false ∧ i ∉ st'.timer_heap) ∧
      (∀ i ∈ dueIds st, (getTimer st i).rep ≠ 0 →
          (getTimer st' i).active = true ∧ i ∈ st'.timer_heap ∧
          (getTimer st' i).timeout = min (st.time + (getTimer st i).rep) U64_MAX ∧
          (getTimer st' i).rep = (getTimer st i).rep ∧
          (getTimer st' i).timer_cb = (getTimer st i).timer_cb) ∧
      (∀ i ∈ st.timer_heap, i ∉ dueIds st →
          getTimer st' i = getTimer st i ∧ i ∈ st'.timer_heap) ∧
      st'.time = st.time ∧
      dueIds st' = [] := by
  obtain ⟨st', fired, hrun, h2, h3, h4, h5, h6, h7, _, h9, h10⟩ :=
    run_timers_main (dueIds st).length st hwf htime hcnt rfl []
  exact ⟨st', fired, hrun, h2, h3, h4, h5, h6, h7, h9, h10⟩

/-- Witness for C1 at the spec's scenario: A@10, B@5, C@10 registered in
that order, time 20, all one-shot. -/
theorem uv__run_timers_spec_witness :
    ∃ st' fired,
      uv__run_timers exStBAC [] ((dueIds exStBAC).length + 1) = some (st', fired) ∧
      (fired.map Prod.fst).Perm (dueIds exStBAC) ∧
      (fired.map Prod.fst).Pairwise
        (fun i j => timer_less_than (getTimer exStBAC i) (getTimer exStBAC j) = true) ∧
      (∀ p ∈ fired, p.2 = (getTimer exStBAC p.1).timer_cb) ∧
      (∀ i ∈ dueIds exStBAC, (getTimer exStBAC i).rep = 0 →
          (getTimer st' i).active = false ∧ i ∉ st'.timer_heap) ∧
      (∀ i ∈ dueIds exStBAC, (getTimer exStBAC i).rep ≠ 0 →
          (getTimer st' i).active = true ∧ i ∈ st'.timer_heap ∧
          (getTimer st' i).timeout
            = min (exStBAC.time + (getTimer exStBAC i).rep) U64_MAX ∧
          (getTimer st' i).rep = (getTimer exStBAC i).rep ∧
          (getTimer st' i).timer_cb = (getTimer exStBAC i).timer_cb) ∧
      (∀ i ∈ exStBAC.timer_heap, i ∉ dueIds exStBAC →
          getTimer st' i = getTimer exStBAC i ∧ i ∈ st'.timer_heap) ∧
      st'.time = exStBAC.time ∧
      dueIds st' = [] :=
  uv__run_timers_spec exStBAC
    ⟨by unfold WFcore; decide, by unfold WFord; decide⟩ (by decide) (by decide)

/-- C9: termination and its boundary. When `time < U64_MAX` (with a
well-formed state and non-exhausted counter) `uv__run_timers` breaks out
within `|due| + 1` iterations — every fired repeating timer is re-armed
at the saturated `time + repeat`, which is strictly in the future, and
one-shot timers are not re-inserted, so the due set shrinks every
iteration; when `time = U64_MAX` and a due repeating timer is in the
heap, the re-armed deadline saturates to exactly `time`, the timer is
due again, and the loop exhausts any finite fuel without breaking. -/
theorem uv__run_timers_termination (st : LoopState) :
    (WF st → st.time < U64_MAX →
      st.timer_counter + (dueIds st).length < 2 ^ 64 →
      ∃ st' fired,
        uv__run_timers st [] ((dueIds st).length + 1) = some (st', fired) ∧
        (∀ i ∈ dueIds st, (getTimer st i).rep ≠ 0 →
            (getTimer st' i).timeout = min (st.time + (getTimer st i).rep) U64_MAX ∧
            st.time < (getTimer st' i).timeout) ∧
        dueIds st' = []) ∧
    (WFcore st → st.time = U64_MAX →
      (∃ i, i ∈ st.timer_heap ∧ (getTimer st i).timeout ≤ st.time ∧
        (getTimer st i).rep ≠ 0) →
      ∀ fuel acc, uv__run_timers st acc fuel = none) := by
  constructor
  · intro hwf htime hcnt
    obtain ⟨st', fired, hrun, _, _, _, _, h6, _, _, _, h10⟩ :=
      run_timers_main (dueIds st).length st hwf htime hcnt rfl []
    refine ⟨st', fired, hrun, ?_, h10⟩
    intro i hi hrep
    obtain ⟨_, _, hto, _, _⟩ := h6 i hi hrep
    refine ⟨hto, ?_⟩
    rw [hto]
    have h1 : 1 ≤ (getTimer st i).rep := Nat.one_le_iff_ne_zero.mpr hrep
    unfold U64_MAX
    unfold U64_MAX at htime
    omega
  · intro hwfc htime hex fuel acc
    exact run_timers_saturated_none fuel st acc hwfc htime hex

/-- Witness for C9: the due repeating timer at time 10 terminates with a
re-arm to 13; the saturated-clock state loops (fuel 5 exhausted). -/
theorem uv__run_timers_termination_witness :
    (∃ st' fired,
      uv__run_timers exStRep [] ((dueIds exStRep).length + 1) = some (st', fired) ∧
      (∀ i ∈ dueIds exStRep, (getTimer exStRep i).rep ≠ 0 →
          (getTimer st' i).timeout
            = min (exStRep.time + (getTimer exStRep i).rep) U64_MAX ∧
          exStRep.time < (getTimer st' i).timeout) ∧
      dueIds st' = []) ∧
    uv__run_timers exStSat [] 5 = none :=
  ⟨(uv__run_timers_termination exStRep).1
      ⟨by unfold WFcore; decide, by unfold WFord; decide⟩ (by decide) (by decide),
   (uv__run_timers_termination exStSat).2 (by unfold WFcore; decide) (by decide)
      ⟨0, by decide, by decide, by decide⟩ 5 []⟩
